import Mathlib

/-!
Shallow embedding of the gokv-dynamodb adapter (dynamodb.go): a key-value
store adapter over a DynamoDB-shaped backend.  Bytes are lists of naturals,
the vendor item maps are association lists, the network backend is an
in-memory table threaded through each operation together with a trace of
the network calls issued.
-/

namespace GokvDynamo

/-- Byte strings, as produced by a codec. -/
abbrev Bytes := List Nat

/-- Model of awsdynamodb.AttributeValue: only the fields this adapter touches
(S for strings, B for binary blobs, N for numbers). -/
structure AttributeValue where
  S : Option String
  B : Option Bytes
  N : Option String
  deriving Repr, DecidableEq

/-- Association-list lookup, modelling Go map indexing (missing key gives nil). -/
def alGet {β : Type} : List (String × β) → String → Option β
  | [], _ => none
  | (k1, v1) :: t, k => if k1 = k then some v1 else alGet t k

/-- Association-list update, modelling Go map assignment. -/
def alSet {β : Type} : List (String × β) → String → β → List (String × β)
  | [], k, v => [(k, v)]
  | (k1, v1) :: t, k, v => if k1 = k then (k, v) :: t else (k1, v1) :: alSet t k v

/-- Association-list removal, modelling deletion of a key. -/
def alDel {β : Type} : List (String × β) → String → List (String × β)
  | [], _ => []
  | (k1, v1) :: t, k => if k1 = k then alDel t k else (k1, v1) :: alDel t k

/-- An item: attribute name to attribute value, as a Go map. -/
abbrev AttrMap := List (String × AttributeValue)

/-- From dynamodb.go: "k" is used as table column name for the key. -/
def keyAttrName : String := "k"

/-- From dynamodb.go: "v" is used as table column name for the value. -/
def valAttrName : String := "v"

/-- Model of awsdynamodb.PutItemInput. -/
structure PutItemInput where
  TableName : String
  Item : AttrMap
  deriving Repr, DecidableEq

/-- Model of awsdynamodb.GetItemInput. -/
structure GetItemInput where
  TableName : String
  Key : AttrMap
  deriving Repr, DecidableEq

/-- Model of awsdynamodb.DeleteItemInput. -/
structure DeleteItemInput where
  TableName : String
  Key : AttrMap
  deriving Repr, DecidableEq

/-- A network call issued by the adapter to the storage client. -/
inductive Event where
  | putItem (input : PutItemInput)
  | getItem (input : GetItemInput)
  | deleteItem (input : DeleteItemInput)
  deriving Repr, DecidableEq

/-- The items of the put calls in a trace: the items actually written. -/
def putItemsOf (evs : List Event) : List AttrMap :=
  evs.filterMap fun e =>
    match e with
    | Event.putItem i => some i.Item
    | _ => none

/-- The partition key of an item, read from its "k" attribute, as the mock
storage backend in the tests does. -/
def itemKey (m : AttrMap) : Option String :=
  match alGet m keyAttrName with
  | some av => av.S
  | none => none

/-- The remote table state: partition key value to stored item. -/
structure DB where
  items : List (String × AttrMap)
  deriving Repr, DecidableEq

/-- PutItem semantics of the backend: unconditional whole-item replacement
under the item's partition key. -/
def DB.putItem (db : DB) (i : PutItemInput) : DB :=
  match itemKey i.Item with
  | some k => ⟨alSet db.items k i.Item⟩
  | none => db

/-- GetItem semantics of the backend: point lookup; a missing row yields a
nil Item in the output. -/
def DB.getItem (db : DB) (i : GetItemInput) : Option AttrMap :=
  match itemKey i.Key with
  | some k => alGet db.items k
  | none => none

/-- DeleteItem semantics of the backend: remove the row if present; deleting
an absent key succeeds. -/
def DB.deleteItem (db : DB) (i : DeleteItemInput) : DB :=
  match itemKey i.Key with
  | some k => ⟨alDel db.items k⟩
  | none => db

/-- Model of encoding.Codec: the pluggable serialization capability. -/
structure Codec (α : Type) where
  Marshal : α → Except String Bytes
  Unmarshal : Bytes → Except String α

/-- Modelled from the spec: the external validation helper util.CheckKey,
which rejects the empty key before any network call. -/
def checkKey (k : String) : Option String :=
  if k = "" then some "The passed key is an empty string, which is invalid"
  else none

/-- Modelled from the spec: the external validation helper util.CheckVal,
which rejects a nil value or nil destination. A Go nil interface value is
modelled as none. -/
def checkVal {α : Type} (v : Option α) : Option String :=
  match v with
  | none => some "The passed value is nil, which is not allowed"
  | some _ => none

/-- Modelled from the spec: util.CheckKeyAndValue, key check first then
value check. -/
def checkKeyAndValue {α : Type} (k : String) (v : Option α) : Option String :=
  match checkKey k with
  | some e => some e
  | none => checkVal v

/-- Model of the storage-client handle used at construction time: the
describe-table call either succeeds or reports an error for a table name. -/
structure Svc where
  describeTable : String → Option String

/-- Model of the Client struct of dynamodb.go: storage client handle, table
name and codec. A nil codec interface is modelled as none. -/
structure Client (α : Type) where
  svc : Option Svc
  tableName : String
  codec : Option (Codec α)

/-- Outcome of Set and Delete: error, new table state, network calls issued. -/
structure WriteOut where
  err : Option String
  db : DB
  events : List Event

/-- Outcome of Get: the found flag, the error, the content of the
destination after the call, and the network calls issued. -/
structure GetOut (α : Type) where
  found : Bool
  err : Option String
  dest : Option α
  events : List Event

/-- Client.Set of dynamodb.go: validate, marshal, build the two-attribute
item and issue one PutItem. A nil codec, which Go would dereference and
panic on, is modelled as an error outcome; no claim exercises that branch. -/
def Client.Set {α : Type} (c : Client α) (k : String) (v : Option α) (db : DB) : WriteOut :=
  match checkKeyAndValue k v with
  | some e => ⟨some e, db, []⟩
  | none =>
    match v with
    | none => ⟨some "unreachable: checkKeyAndValue rejects nil", db, []⟩
    | some a =>
      match c.codec with
      | none => ⟨some "nil codec dereference", db, []⟩
      | some cd =>
        match cd.Marshal a with
        | Except.error e => ⟨some e, db, []⟩
        | Except.ok data =>
          let item : AttrMap := []
          let item := alSet item keyAttrName ⟨some k, none, none⟩
          let item := alSet item valAttrName ⟨none, some data, none⟩
          let input : PutItemInput := ⟨c.tableName, item⟩
          ⟨none, db.putItem input, [Event.putItem input]⟩

/-- Client.Get of dynamodb.go: validate, one GetItem, report not-found for a
missing row or a row without the value attribute, otherwise unmarshal the
value bytes into the destination. -/
def Client.Get {α : Type} (c : Client α) (k : String) (dest : Option α) (db : DB) : GetOut α :=
  match checkKeyAndValue k dest with
  | some e => ⟨false, some e, dest, []⟩
  | none =>
    let key := alSet ([] : AttrMap) keyAttrName ⟨some k, none, none⟩
    let input : GetItemInput := ⟨c.tableName, key⟩
    match db.getItem input with
    | none => ⟨false, none, dest, [Event.getItem input]⟩
    | some item =>
      match alGet item valAttrName with
      | none => ⟨false, none, dest, [Event.getItem input]⟩
      | some attributeVal =>
        let data := attributeVal.B.getD []
        match c.codec with
        | none => ⟨true, some "nil codec dereference", dest, [Event.getItem input]⟩
        | some cd =>
          match cd.Unmarshal data with
          | Except.ok a => ⟨true, none, some a, [Event.getItem input]⟩
          | Except.error e => ⟨true, some e, dest, [Event.getItem input]⟩

/-- Client.Delete of dynamodb.go: validate the key and issue one DeleteItem;
the backend reports success whether or not the row existed. -/
def Client.Delete {α : Type} (c : Client α) (k : String) (db : DB) : WriteOut :=
  match checkKey k with
  | some e => ⟨some e, db, []⟩
  | none =>
    let key := alSet ([] : AttrMap) keyAttrName ⟨some k, none, none⟩
    let input : DeleteItemInput := ⟨c.tableName, key⟩
    ⟨none, db.deleteItem input, [Event.deleteItem input]⟩

/-- Client.Close of dynamodb.go: a no-op that always succeeds. -/
def Client.Close {α : Type} (_ : Client α) : Option String := none

/-- Model of the Options struct of dynamodb.go: TableName, Service, Codec.
Nil interface fields are modelled as none. -/
structure Options (α : Type) where
  TableName : String
  Service : Option Svc
  Codec : Option (Codec α)

/-- DefaultOptions of dynamodb.go: the zero Options except the codec, which
is encoding.JSON. The concrete external JSON codec is abstract here and is
passed in as jsonCodec; what matters is that the default codec is present,
never nil. -/
def DefaultOptions {α : Type} (jsonCodec : Codec α) : Options α :=
  ⟨"", none, some jsonCodec⟩

/-- NewClient of dynamodb.go: reject a nil service and an empty table name,
run the bounded describe-table existence check, then fill in the client.
Note the source assigns options.Codec to the result unconditionally, with no
defaulting step. Returns the (possibly partially filled) result together
with the error, as the Go function does. -/
def NewClient {α : Type} (options : Options α) : Client α × Option String :=
  let result : Client α := ⟨none, "", none⟩
  match options.Service with
  | none => (result, some "no dynamodb service provided")
  | some svc =>
    let result := { result with svc := some svc }
    if options.TableName = "" then
      (result, some "no options.TableName specified")
    else
      let result := { result with tableName := options.TableName }
      match svc.describeTable options.TableName with
      | some e => (result, some e)
      | none => ({ result with codec := options.Codec }, none)

/-- Modelled from the spec: the TTL-enabled client, whose source file is not
in the repository snapshot (the Options used by the TTL test carries a TTL
duration field, and the spec describes the ttl attribute); the client holds
the optional TTL duration, zero meaning unset. -/
structure ClientTTL (α : Type) where
  svc : Option Svc
  tableName : String
  codec : Option (Codec α)
  ttl : Nat

/-- Modelled from the spec: the TTL-enabled Set. Identical to Client.Set
except that, when the configured TTL is positive, it attaches a numeric ttl
attribute holding the fresh absolute expiry now + TTL; with TTL unset it
never introduces a ttl attribute. -/
def ClientTTL.Set {α : Type} (c : ClientTTL α) (now : Nat) (k : String) (v : Option α)
    (db : DB) : WriteOut :=
  match checkKeyAndValue k v with
  | some e => ⟨some e, db, []⟩
  | none =>
    match v with
    | none => ⟨some "unreachable: checkKeyAndValue rejects nil", db, []⟩
    | some a =>
      match c.codec with
      | none => ⟨some "nil codec dereference", db, []⟩
      | some cd =>
        match cd.Marshal a with
        | Except.error e => ⟨some e, db, []⟩
        | Except.ok data =>
          let item : AttrMap := []
          let item := alSet item keyAttrName ⟨some k, none, none⟩
          let item := alSet item valAttrName ⟨none, some data, none⟩
          let item :=
            if 0 < c.ttl then
              alSet item "ttl" ⟨none, none, some (toString (now + c.ttl))⟩
            else item
          let input : PutItemInput := ⟨c.tableName, item⟩
          ⟨none, db.putItem input, [Event.putItem input]⟩

/-! Association-list lemmas. -/

/-- Looking up a key just written yields the written value. -/
theorem alGet_alSet_self {β : Type} (l : List (String × β)) (k : String) (v : β) :
    alGet (alSet l k v) k = some v := by
  induction l with
  | nil => simp [alSet, alGet]
  | cons p t ih =>
    obtain ⟨k1, v1⟩ := p
    by_cases h : k1 = k
    · simp [alSet, alGet, h]
    · simp [alSet, alGet, h, ih]

/-- Looking up a different key is unaffected by a write. -/
theorem alGet_alSet_ne {β : Type} (l : List (String × β)) (k j : String) (v : β)
    (h : k ≠ j) : alGet (alSet l k v) j = alGet l j := by
  induction l with
  | nil => simp [alSet, alGet, h]
  | cons p t ih =>
    obtain ⟨k1, v1⟩ := p
    by_cases h1 : k1 = k
    · simp [alSet, alGet, h1, h]
    · by_cases h2 : k1 = j
      · simp [alSet, alGet, h1, h2, Ne.symm h]
      · simp [alSet, alGet, h1, h2, ih]

/-! Concrete instances used by the witnesses: a tiny invertible codec on
naturals, a codec that always fails to marshal, and a mock storage handle
shaped like the one in the tests. -/

/-- A concrete codec on naturals: a number is encoded as the singleton byte
list holding it, and decoding inverts that; any other byte list is a decode
error. -/
def natCodec : Codec Nat where
  Marshal := fun n => Except.ok [n]
  Unmarshal := fun b =>
    match b with
    | [n] => Except.ok n
    | _ => Except.error "cannot decode"

/-- A codec whose Marshal always fails, for the encoding-failure claims. -/
def failCodec : Codec Nat where
  Marshal := fun _ => Except.error "marshal failure"
  Unmarshal := fun _ => Except.error "unmarshal failure"

/-- The mock storage handle of the tests: describe-table fails only for the
table named missing. -/
def mockSvc : Svc where
  describeTable := fun tn => if tn = "missing" then some "ResourceNotFoundException" else none

/-- A concrete client over natCodec, as NewClient would fill it in. -/
def cNat : Client Nat := ⟨some mockSvc, "gokv", some natCodec⟩

/-- A concrete client whose codec always fails to marshal. -/
def cFail : Client Nat := ⟨some mockSvc, "gokv", some failCodec⟩

/-- A concrete TTL-enabled client with a ten-second TTL. -/
def cTTL : ClientTTL Nat := ⟨some mockSvc, "withttl", some natCodec, 10⟩

/-- A concrete TTL-enabled client with TTL unset. -/
def cNoTTL : ClientTTL Nat := ⟨some mockSvc, "nottl", some natCodec, 0⟩

/-- The construction options exhibiting the nil-codec bug: valid service and
table name, codec left unspecified. -/
def optsNoCodec : Options Nat := ⟨"happy-path", some mockSvc, none⟩

/-- The point lookup issued by Get and Delete reads the row stored under the
key attribute value. -/
theorem getItem_key (db : DB) (tn k : String) :
    db.getItem ⟨tn, alSet ([] : AttrMap) keyAttrName ⟨some k, none, none⟩⟩ =
      alGet db.items k := by
  simp [DB.getItem, itemKey, alSet, alGet, keyAttrName]

/-- C5: for every non-empty key k and non-nil destination, Get on a key for
which no item exists in the table returns found false with no error:
absence is reported as not-found, never as an error. -/
theorem C5_get_absent_not_error {α : Type} (c : Client α) (k : String) (d0 : α) (db : DB)
    (hk : k ≠ "") (habsent : alGet db.items k = none) :
    (c.Get k (some d0) db).found = false ∧ (c.Get k (some d0) db).err = none := by
  simp [Client.Get, checkKeyAndValue, checkKey, checkVal, hk, getItem_key, habsent]

/-- C5 witness: on the empty table, Get of key a returns found false and no
error. -/
theorem C5_get_absent_not_error_witness :
    (("a" : String) ≠ "" ∧ alGet (DB.mk []).items "a" = none) ∧
    ((cNat.Get "a" (some 0) (DB.mk [])).found = false ∧
      (cNat.Get "a" (some 0) (DB.mk [])).err = none) :=
  ⟨⟨by decide, rfl⟩, C5_get_absent_not_error cNat "a" 0 (DB.mk []) (by decide) rfl⟩

/-- C6: for every non-empty key and non-nil destination, when the stored
item exists but carries no value attribute, Get returns found false with no
error and the destination untouched; the codec is universally quantified and
the whole outcome is the same for any two codecs, which captures that
Unmarshal is never invoked on this path. -/
theorem C6_get_item_without_value {α : Type} (s : Option Svc) (tn : String)
    (cd cd2 : Codec α) (k : String) (d0 : α) (db : DB) (item : AttrMap)
    (hk : k ≠ "") (hit : alGet db.items k = some item)
    (hv : alGet item valAttrName = none) :
    ((Client.mk s tn (some cd)).Get k (some d0) db).found = false ∧
    ((Client.mk s tn (some cd)).Get k (some d0) db).err = none ∧
    ((Client.mk s tn (some cd)).Get k (some d0) db).dest = some d0 ∧
    (Client.mk s tn (some cd)).Get k (some d0) db =
      (Client.mk s tn (some cd2)).Get k (some d0) db := by
  simp [Client.Get, checkKeyAndValue, checkKey, checkVal, hk, getItem_key, hit, hv]

/-- C6 witness: a row for key a holding only the key attribute makes Get
report not-found without error, identically under two different codecs. -/
theorem C6_get_item_without_value_witness :
    (("a" : String) ≠ "" ∧
      alGet (DB.mk [("a", [(keyAttrName, ⟨some "a", none, none⟩)])]).items "a" =
        some [(keyAttrName, ⟨some "a", none, none⟩)] ∧
      alGet [(keyAttrName, (⟨some "a", none, none⟩ : AttributeValue))] valAttrName = none) ∧
    (((Client.mk (some mockSvc) "gokv" (some natCodec)).Get "a" (some 0)
        (DB.mk [("a", [(keyAttrName, ⟨some "a", none, none⟩)])])).found = false ∧
      ((Client.mk (some mockSvc) "gokv" (some natCodec)).Get "a" (some 0)
        (DB.mk [("a", [(keyAttrName, ⟨some "a", none, none⟩)])])).err = none ∧
      ((Client.mk (some mockSvc) "gokv" (some natCodec)).Get "a" (some 0)
        (DB.mk [("a", [(keyAttrName, ⟨some "a", none, none⟩)])])).dest = some 0 ∧
      (Client.mk (some mockSvc) "gokv" (some natCodec)).Get "a" (some 0)
        (DB.mk [("a", [(keyAttrName, ⟨some "a", none, none⟩)])]) =
        (Client.mk (some mockSvc) "gokv" (some failCodec)).Get "a" (some 0)
          (DB.mk [("a", [(keyAttrName, ⟨some "a", none, none⟩)])])) :=
  ⟨⟨by decide, rfl, rfl⟩,
    C6_get_item_without_value (some mockSvc) "gokv" natCodec failCodec "a" 0
      (DB.mk [("a", [(keyAttrName, ⟨some "a", none, none⟩)])])
      [(keyAttrName, ⟨some "a", none, none⟩)] (by decide) rfl rfl⟩

/-- C7: for every non-empty key whose item exists with a value attribute, if
the codec fails to unmarshal those bytes, Get returns found true together
with the decode error. -/
theorem C7_get_decode_error_found_true {α : Type} (s : Option Svc) (tn : String)
    (cd : Codec α) (k : String) (d0 : α) (db : DB) (item : AttrMap)
    (av : AttributeValue) (e : String)
    (hk : k ≠ "") (hit : alGet db.items k = some item)
    (hv : alGet item valAttrName = some av)
    (hu : cd.Unmarshal (av.B.getD []) = Except.error e) :
    ((Client.mk s tn (some cd)).Get k (some d0) db).found = true ∧
    ((Client.mk s tn (some cd)).Get k (some d0) db).err = some e := by
  simp [Client.Get, checkKeyAndValue, checkKey, checkVal, hk, getItem_key, hit, hv, hu]

/-- C7 witness: a stored value byte list that natCodec cannot decode makes
Get return found true with the decode error. -/
theorem C7_get_decode_error_found_true_witness :
    (("a" : String) ≠ "" ∧
      alGet (DB.mk [("a", [(keyAttrName, ⟨some "a", none, none⟩),
          (valAttrName, ⟨none, some [], none⟩)])]).items "a" =
        some [(keyAttrName, ⟨some "a", none, none⟩), (valAttrName, ⟨none, some [], none⟩)] ∧
      alGet [(keyAttrName, (⟨some "a", none, none⟩ : AttributeValue)),
          (valAttrName, ⟨none, some [], none⟩)] valAttrName = some ⟨none, some [], none⟩ ∧
      natCodec.Unmarshal ((Option.some ([] : Bytes)).getD []) = Except.error "cannot decode") ∧
    (((Client.mk (some mockSvc) "gokv" (some natCodec)).Get "a" (some 0)
        (DB.mk [("a", [(keyAttrName, ⟨some "a", none, none⟩),
          (valAttrName, ⟨none, some [], none⟩)])])).found = true ∧
      ((Client.mk (some mockSvc) "gokv" (some natCodec)).Get "a" (some 0)
        (DB.mk [("a", [(keyAttrName, ⟨some "a", none, none⟩),
          (valAttrName, ⟨none, some [], none⟩)])])).err = some "cannot decode") :=
  ⟨⟨by decide, rfl, rfl, rfl⟩,
    C7_get_decode_error_found_true (some mockSvc) "gokv" natCodec "a" 0
      (DB.mk [("a", [(keyAttrName, ⟨some "a", none, none⟩),
        (valAttrName, ⟨none, some [], none⟩)])])
      [(keyAttrName, ⟨some "a", none, none⟩), (valAttrName, ⟨none, some [], none⟩)]
      ⟨none, some [], none⟩ "cannot decode" (by decide) rfl rfl rfl⟩

/-- C8: Set with an empty key, and Set with a nil value, both return a
validation error, issue no network call and leave the stored state
unchanged. -/
theorem C8_set_validation_no_write {α : Type} (c : Client α) (k : String) (v : Option α)
    (db : DB) :
    ((c.Set "" v db).err.isSome ∧ (c.Set "" v db).db = db ∧ (c.Set "" v db).events = []) ∧
    ((c.Set k none db).err.isSome ∧ (c.Set k none db).db = db ∧
      (c.Set k none db).events = []) := by
  refine ⟨?_, ?_⟩
  · simp [Client.Set, checkKeyAndValue, checkKey]
  · by_cases hk : k = ""
    · simp [Client.Set, checkKeyAndValue, checkKey, hk]
    · simp [Client.Set, checkKeyAndValue, checkKey, checkVal, hk]

/-- C9: Delete of a non-empty key with no existing item returns no error,
and a second Delete of the same key again returns no error: deletion is
idempotent and deleting an absent key is success. -/
theorem C9_delete_idempotent {α : Type} (c : Client α) (k : String) (db : DB)
    (hk : k ≠ "") (_habsent : alGet db.items k = none) :
    (c.Delete k db).err = none ∧ (c.Delete k (c.Delete k db).db).err = none := by
  simp [Client.Delete, checkKey, hk]

/-- C9 witness: deleting key a twice on the empty table succeeds both
times. -/
theorem C9_delete_idempotent_witness :
    (("a" : String) ≠ "" ∧ alGet (DB.mk []).items "a" = none) ∧
    ((cNat.Delete "a" (DB.mk [])).err = none ∧
      (cNat.Delete "a" (cNat.Delete "a" (DB.mk [])).db).err = none) :=
  ⟨⟨by decide, rfl⟩, C9_delete_idempotent cNat "a" (DB.mk []) (by decide) rfl⟩

/-- C10: when Marshal fails during Set on a non-empty key and non-nil value,
Set returns the encoding error, issues no PutItem and leaves the stored
state unchanged. -/
theorem C10_set_marshal_error_atomic {α : Type} (s : Option Svc) (tn : String)
    (cd : Codec α) (k : String) (a : α) (db : DB) (e : String)
    (hk : k ≠ "") (hm : cd.Marshal a = Except.error e) :
    (Client.mk s tn (some cd)).Set k (some a) db = ⟨some e, db, []⟩ := by
  simp [Client.Set, checkKeyAndValue, checkKey, checkVal, hk, hm]

/-- C10 witness: the always-failing codec makes Set return the marshal error
with the table untouched and no call issued. -/
theorem C10_set_marshal_error_atomic_witness :
    (("a" : String) ≠ "" ∧ failCodec.Marshal 5 = Except.error "marshal failure") ∧
    (Client.mk (some mockSvc) "gokv" (some failCodec)).Set "a" (some 5) (DB.mk []) =
      ⟨some "marshal failure", DB.mk [], []⟩ :=
  ⟨⟨by decide, rfl⟩,
    C10_set_marshal_error_atomic (some mockSvc) "gokv" failCodec "a" 5 (DB.mk [])
      "marshal failure" (by decide) rfl⟩

/-- C3: for every non-empty key and non-nil value the codec can represent, a
successful Set followed by Get on the same adapter returns found true with
no error and leaves the destination equal to the value, assuming Unmarshal
inverts Marshal on the encoded bytes. -/
theorem C3_set_get_roundtrip {α : Type} (s : Option Svc) (tn : String) (cd : Codec α)
    (k : String) (a d0 : α) (db : DB) (data : Bytes)
    (hk : k ≠ "") (hm : cd.Marshal a = Except.ok data)
    (hu : cd.Unmarshal data = Except.ok a) :
    let c : Client α := ⟨s, tn, some cd⟩
    let o1 := c.Set k (some a) db
    let o2 := c.Get k (some d0) o1.db
    o1.err = none ∧ o2.found = true ∧ o2.err = none ∧ o2.dest = some a := by
  simp [Client.Set, Client.Get, checkKeyAndValue, checkKey, checkVal, hk, hm, hu,
    DB.putItem, DB.getItem, itemKey, alSet, alGet, keyAttrName, valAttrName,
    alGet_alSet_self]

/-- C3 witness: under natCodec, Set of 5 at key a on the empty table then
Get at key a returns found true, no error and destination 5. -/
theorem C3_set_get_roundtrip_witness :
    (("a" : String) ≠ "" ∧ natCodec.Marshal 5 = Except.ok [5] ∧
      natCodec.Unmarshal [5] = Except.ok 5) ∧
    (let c : Client Nat := ⟨some mockSvc, "gokv", some natCodec⟩
     let o1 := c.Set "a" (some 5) (DB.mk [])
     let o2 := c.Get "a" (some 0) o1.db
     o1.err = none ∧ o2.found = true ∧ o2.err = none ∧ o2.dest = some 5) :=
  ⟨⟨by decide, rfl, rfl⟩,
    C3_set_get_roundtrip (some mockSvc) "gokv" natCodec "a" 5 0 (DB.mk []) [5]
      (by decide) rfl rfl⟩

/-- C4: Set of v1 then Set of v2 at the same non-empty key fully replaces
the item: the subsequent Get yields v2 and the stored row is exactly the
two-attribute item of the second write, with no attribute of the first
write remaining. -/
theorem C4_set_overwrites_fully {α : Type} (s : Option Svc) (tn : String) (cd : Codec α)
    (k : String) (a1 a2 d0 : α) (db : DB) (data1 data2 : Bytes)
    (hk : k ≠ "") (hm1 : cd.Marshal a1 = Except.ok data1)
    (hm2 : cd.Marshal a2 = Except.ok data2)
    (hu2 : cd.Unmarshal data2 = Except.ok a2) :
    let c : Client α := ⟨s, tn, some cd⟩
    let o1 := c.Set k (some a1) db
    let o2 := c.Set k (some a2) o1.db
    let o3 := c.Get k (some d0) o2.db
    o3.found = true ∧ o3.err = none ∧ o3.dest = some a2 ∧
    alGet o2.db.items k =
      some [(keyAttrName, ⟨some k, none, none⟩), (valAttrName, ⟨none, some data2, none⟩)] := by
  simp [Client.Set, Client.Get, checkKeyAndValue, checkKey, checkVal, hk, hm1, hm2, hu2,
    DB.putItem, DB.getItem, itemKey, alSet, alGet, keyAttrName, valAttrName,
    alGet_alSet_self]

/-- C4 witness: writing 5 then 6 at key a leaves exactly the second item,
and Get returns 6. -/
theorem C4_set_overwrites_fully_witness :
    (("a" : String) ≠ "" ∧ natCodec.Marshal 5 = Except.ok [5] ∧
      natCodec.Marshal 6 = Except.ok [6] ∧ natCodec.Unmarshal [6] = Except.ok 6) ∧
    (let c : Client Nat := ⟨some mockSvc, "gokv", some natCodec⟩
     let o1 := c.Set "a" (some 5) (DB.mk [])
     let o2 := c.Set "a" (some 6) o1.db
     let o3 := c.Get "a" (some 0) o2.db
     o3.found = true ∧ o3.err = none ∧ o3.dest = some 6 ∧
     alGet o2.db.items "a" =
       some [(keyAttrName, ⟨some "a", none, none⟩), (valAttrName, ⟨none, some [6], none⟩)]) :=
  ⟨⟨by decide, rfl, rfl, rfl⟩,
    C4_set_overwrites_fully (some mockSvc) "gokv" natCodec "a" 5 6 0 (DB.mk []) [5] [6]
      (by decide) rfl rfl rfl⟩

/-- C1: on the TTL-enabled client, with a positive configured TTL every
successful Set writes an item and every written item carries a ttl
attribute; with TTL unset, no written item ever carries a ttl attribute. -/
theorem C1_ttl_attribute {α : Type} (c : ClientTTL α) (now : Nat) (k : String)
    (v : Option α) (db : DB) :
    (0 < c.ttl → (c.Set now k v db).err = none →
      putItemsOf (c.Set now k v db).events ≠ [] ∧
      ∀ m ∈ putItemsOf (c.Set now k v db).events, (alGet m "ttl").isSome) ∧
    (c.ttl = 0 → ∀ m ∈ putItemsOf (c.Set now k v db).events, alGet m "ttl" = none) := by
  cases hcv : checkKeyAndValue k v with
  | some e => simp [ClientTTL.Set, hcv, putItemsOf]
  | none =>
    cases v with
    | none => simp [ClientTTL.Set, hcv, putItemsOf]
    | some a =>
      cases hcd : c.codec with
      | none => simp [ClientTTL.Set, hcv, hcd, putItemsOf]
      | some cd =>
        cases hma : cd.Marshal a with
        | error e => simp [ClientTTL.Set, hcv, hcd, hma, putItemsOf]
        | ok data =>
          by_cases ht : 0 < c.ttl
          · refine ⟨fun _ _ => ?_, fun h0 => absurd h0 (by omega)⟩
            simp [ClientTTL.Set, hcv, hcd, hma, ht, putItemsOf, alGet_alSet_self]
          · refine ⟨fun h1 => absurd h1 ht, fun _ => ?_⟩
            simp [ClientTTL.Set, hcv, hcd, hma, ht, putItemsOf, alSet, alGet,
              keyAttrName, valAttrName]

/-- C1 witness: the client configured with a ten-second TTL successfully
writes key a, and the written item carries a ttl attribute. -/
theorem C1_ttl_attribute_witness :
    (0 < cTTL.ttl ∧ (cTTL.Set 100 "a" (some 5) (DB.mk [])).err = none) ∧
    (putItemsOf (cTTL.Set 100 "a" (some 5) (DB.mk [])).events ≠ [] ∧
      ∀ m ∈ putItemsOf (cTTL.Set 100 "a" (some 5) (DB.mk [])).events,
        (alGet m "ttl").isSome) :=
  ⟨⟨by decide, rfl⟩,
    (C1_ttl_attribute cTTL 100 "a" (some 5) (DB.mk [])).1 (by decide) rfl⟩

/-- C2: the claim fails on the source: NewClient with a valid service and
table name but an unspecified codec succeeds and returns a client whose
codec is nil, not the JSON codec; the defaulting step that DefaultOptions
advertises is absent from NewClient. -/
theorem C2_nil_codec_not_defaulted :
    (NewClient optsNoCodec).2 = none ∧ (NewClient optsNoCodec).1.codec = none ∧
    (DefaultOptions natCodec).Codec = some natCodec :=
  ⟨rfl, rfl, rfl⟩

end GokvDynamo
